import Mathlib

/-!
Verification of the EV range simulator.

Shallow embedding of `simulator.py`: the `Car` drive/charge state machine,
the `Simulation` driver loop and the `power_for_velocity` physics function,
with real numbers modelled by `ℚ` (the Python code uses floats; every claim
under scrutiny is about exact arithmetic structure, which `ℚ` captures).
Python boolean expressions are modelled as decidable propositions.
-/

set_option autoImplicit false

/-- Embedding of `power_for_velocity` from `simulator.py`: instantaneous power
(watts) needed to sustain `velocity` (m/s): air drag + rolling resistance
terms, each multiplied by the velocity, plus a 1 kW standby load. -/
def power_for_velocity (velocity : ℚ) : ℚ :=
  let roh : ℚ := 1.2041
  let coefficient_of_drag : ℚ := 0.23
  let area : ℚ := 1.433 * 1.850
  let cw_a : ℚ := coefficient_of_drag * area
  let force_air : ℚ := cw_a * velocity * velocity / 2 * roh
  let c_r : ℚ := 0.012
  let force_roll_resistance : ℚ := c_r * 1950 * 9.81
  let power_standby : ℚ := 1000
  (force_air + force_roll_resistance) * velocity + power_standby

/-- Embedding of the mutable state of Python class `Car`. -/
structure Car where
  time_factor : ℚ
  charging : Bool
  battery_capacity : ℚ
  battery_charge : ℚ
  battery_charge_total : ℚ
  energy_usage_per_tick : ℚ
  charge_speed_per_tick : ℚ
  number_of_charging_stops : ℕ
  distance_driven : ℚ
  distance_per_tick : ℚ
  charge_level_history : List ℚ
  distance_driven_history : List ℚ
  time_history : List ℕ
  deriving DecidableEq

/-- Embedding of `Car.__init__`: battery starts at capacity (70000 Wh) and
`battery_charge_total` is initialised to the same value; the three per-tick
constants are derived from the configuration. -/
def Car.init (time_factor charge_speed_per_hour distance_per_hour : ℚ) : Car :=
  { time_factor := time_factor
    charging := false
    battery_capacity := 70000
    battery_charge := 70000
    battery_charge_total := 70000
    energy_usage_per_tick := power_for_velocity (distance_per_hour / 3.6) * time_factor
    charge_speed_per_tick := charge_speed_per_hour * time_factor
    number_of_charging_stops := 0
    distance_driven := 0
    distance_per_tick := distance_per_hour * time_factor
    charge_level_history := []
    distance_driven_history := []
    time_history := [] }

/-- Embedding of `Car.drive`: subtract one tick of energy, add one tick of
distance. -/
def Car.drive (c : Car) : Car :=
  { c with
    battery_charge := c.battery_charge - c.energy_usage_per_tick
    distance_driven := c.distance_driven + c.distance_per_tick }

/-- Embedding of `Car.is_fully_charged`: would one more charge tick overshoot
the battery capacity. -/
def Car.is_fully_charged (c : Car) : Prop :=
  c.battery_charge + c.charge_speed_per_tick > c.battery_capacity

instance decCarFullyCharged (c : Car) : Decidable c.is_fully_charged :=
  inferInstanceAs (Decidable (_ > _))

/-- Embedding of `Car.is_sufficiently_charged`: does the current charge exceed
the energy needed to drive every remaining tick of the horizon. -/
def Car.is_sufficiently_charged (c : Car) (time total_duration : ℕ) : Prop :=
  c.battery_charge > ((total_duration : ℚ) - (time : ℚ)) * c.energy_usage_per_tick

instance decCarSufficientlyCharged (c : Car) (time total_duration : ℕ) :
    Decidable (c.is_sufficiently_charged time total_duration) :=
  inferInstanceAs (Decidable (_ > _))

/-- Embedding of `Car.charge`: on a fresh session set the flag and count a
stop, add one tick of charge to both the battery and the cumulative total,
then clear the flag when fully or sufficiently charged. -/
def Car.charge (c : Car) (time total_duration : ℕ) : Car :=
  let c1 : Car :=
    if c.charging then c
    else { c with
           charging := true
           number_of_charging_stops := c.number_of_charging_stops + 1 }
  let c2 : Car :=
    { c1 with
      battery_charge := c1.battery_charge + c1.charge_speed_per_tick
      battery_charge_total := c1.battery_charge_total + c1.charge_speed_per_tick }
  if c2.is_fully_charged ∨ c2.is_sufficiently_charged time total_duration then
    { c2 with charging := false }
  else c2

/-- The branch condition of `Car.tick` (line 47 of `simulator.py`): this tick
charges when the flag is set or one more driving tick would not leave a
positive charge. -/
def Car.tickIsCharging (c : Car) : Prop :=
  c.charging = true ∨ c.battery_charge - c.energy_usage_per_tick ≤ 0

instance decCarTickIsCharging (c : Car) : Decidable c.tickIsCharging :=
  inferInstanceAs (Decidable (_ ∨ _))

/-- Embedding of `Car.tick`: charge or drive according to the branch
condition, then append to the three history series unconditionally. -/
def Car.tick (c : Car) (time total_duration : ℕ) : Car :=
  let c1 : Car :=
    if c.tickIsCharging then c.charge time total_duration else c.drive
  { c1 with
    time_history := c1.time_history ++ [time]
    charge_level_history := c1.charge_level_history ++ [c1.battery_charge]
    distance_driven_history := c1.distance_driven_history ++ [c1.distance_driven] }

/-- Python division, modelled fallibly (`none` = ZeroDivisionError). -/
def safeDiv (a b : ℚ) : Option ℚ :=
  if b = 0 then none else some (a / b)

/-- The `energy_per_km` computation of `Car.status_text`: guarded by the
truthiness of `distance_driven`, returning 0 when no distance has been
driven. -/
def Car.energy_per_km (c : Car) : Option ℚ :=
  if c.distance_driven ≠ 0 then
    safeDiv (c.battery_charge_total - c.battery_charge) c.distance_driven
  else some 0

/-- Embedding of the state of Python class `Simulation`. -/
structure Simulation where
  time : ℕ
  duration : ℕ
  car : Car

/-- Embedding of `Simulation.is_done`. -/
def Simulation.is_done (s : Simulation) : Prop :=
  s.time > s.duration

instance decSimulationDone (s : Simulation) : Decidable s.is_done :=
  inferInstanceAs (Decidable (_ > _))

/-- Embedding of `Simulation.tick`: advance the car by one tick, then the
clock. -/
def Simulation.tick (s : Simulation) : Simulation :=
  { s with car := s.car.tick s.time s.duration, time := s.time + 1 }

/-- Embedding of the `while not self.is_done(): self.tick()` loop of
`Simulation.start`. -/
def Simulation.run (s : Simulation) : Simulation :=
  if s.is_done then s else Simulation.run s.tick
termination_by s.duration + 1 - s.time
decreasing_by
  simp only [Simulation.is_done, Simulation.tick, not_lt] at *
  omega

/-- The car state after `n` ticks of a run with configuration
`(tf, csph, dph)` and horizon `dur`: tick `i` is executed with
`time = i`, matching the driver loop which starts at `time = 1`. -/
def carAfter (tf csph dph : ℚ) (dur : ℕ) : ℕ → Car
  | 0 => Car.init tf csph dph
  | n + 1 => (carAfter tf csph dph dur n).tick (n + 1) dur

/-- The branches taken by the first `n` ticks of a run: entry `i` is `true`
exactly when tick `i + 1` is a charging tick. -/
def kindsUpTo (tf csph dph : ℚ) (dur n : ℕ) : List Bool :=
  (List.range n).map fun i => decide (carAfter tf csph dph dur i).tickIsCharging

/-- Number of maximal contiguous blocks of `true` in a boolean sequence, the
element before the sequence being `prev`: a block is counted at each `true`
whose predecessor is `false`. -/
def countRunsFrom (prev : Bool) : List Bool → ℕ
  | [] => 0
  | b :: l => (if b && !prev then 1 else 0) + countRunsFrom b l

/-- Number of maximal contiguous blocks of `true` in a boolean sequence. -/
def countRuns (l : List Bool) : ℕ := countRunsFrom false l

/-- A car state reachable within a run: the state after `n ≤ dur` ticks of the
driver loop for some configuration. -/
def Reachable (c : Car) : Prop :=
  ∃ (tf csph dph : ℚ) (dur n : ℕ), n ≤ dur ∧ c = carAfter tf csph dph dur n

/-- Claim C8: the physics function at velocity 0 returns exactly the 1000 W standby
power, because both resistance terms are multiplied by the velocity. -/
theorem power_for_velocity_zero : power_for_velocity 0 = 1000 := by
  norm_num [power_for_velocity]

/-! ## Projection lemmas for the three state-changing operations -/

@[simp]
theorem drive_battery_charge (c : Car) :
    c.drive.battery_charge = c.battery_charge - c.energy_usage_per_tick := rfl

@[simp]
theorem drive_distance_driven (c : Car) :
    c.drive.distance_driven = c.distance_driven + c.distance_per_tick := rfl

@[simp]
theorem drive_charging (c : Car) : c.drive.charging = c.charging := rfl

@[simp]
theorem drive_battery_charge_total (c : Car) :
    c.drive.battery_charge_total = c.battery_charge_total := rfl

@[simp]
theorem drive_stops (c : Car) :
    c.drive.number_of_charging_stops = c.number_of_charging_stops := rfl

@[simp]
theorem charge_battery_charge (c : Car) (t T : ℕ) :
    (c.charge t T).battery_charge = c.battery_charge + c.charge_speed_per_tick := by
  simp only [Car.charge]
  split <;> split <;> rfl

@[simp]
theorem charge_battery_charge_total (c : Car) (t T : ℕ) :
    (c.charge t T).battery_charge_total =
      c.battery_charge_total + c.charge_speed_per_tick := by
  simp only [Car.charge]
  split <;> split <;> rfl

@[simp]
theorem charge_distance_driven (c : Car) (t T : ℕ) :
    (c.charge t T).distance_driven = c.distance_driven := by
  simp only [Car.charge]
  split <;> split <;> rfl

theorem charge_stops (c : Car) (t T : ℕ) :
    (c.charge t T).number_of_charging_stops =
      if c.charging then c.number_of_charging_stops
      else c.number_of_charging_stops + 1 := by
  simp only [Car.charge]
  split <;> split <;> rfl

/-- After `Car.charge`, the flag is clear exactly when the post-charge battery
level passes the fully-charged look-ahead or the sufficiently-charged test. -/
theorem charge_charging_iff (c : Car) (t T : ℕ) :
    (c.charge t T).charging = false ↔
      (c.battery_charge + c.charge_speed_per_tick + c.charge_speed_per_tick >
        c.battery_capacity ∨
       c.battery_charge + c.charge_speed_per_tick >
        ((T : ℚ) - (t : ℚ)) * c.energy_usage_per_tick) := by
  simp only [Car.charge, Car.is_fully_charged, Car.is_sufficiently_charged]
  split
  all_goals split
  all_goals simp_all

/-! Constant fields are preserved by every operation. -/

@[simp]
theorem charge_capacity (c : Car) (t T : ℕ) :
    (c.charge t T).battery_capacity = c.battery_capacity := by
  simp only [Car.charge]; split <;> split <;> rfl

@[simp]
theorem charge_energy_usage (c : Car) (t T : ℕ) :
    (c.charge t T).energy_usage_per_tick = c.energy_usage_per_tick := by
  simp only [Car.charge]; split <;> split <;> rfl

@[simp]
theorem charge_speed (c : Car) (t T : ℕ) :
    (c.charge t T).charge_speed_per_tick = c.charge_speed_per_tick := by
  simp only [Car.charge]; split <;> split <;> rfl

@[simp]
theorem charge_distance_per_tick (c : Car) (t T : ℕ) :
    (c.charge t T).distance_per_tick = c.distance_per_tick := by
  simp only [Car.charge]; split <;> split <;> rfl

/-! `Car.tick` in terms of `Car.charge` and `Car.drive`. -/

theorem tick_battery_charge (c : Car) (t T : ℕ) :
    (c.tick t T).battery_charge =
      if c.tickIsCharging then (c.charge t T).battery_charge
      else c.drive.battery_charge := by
  simp only [Car.tick]; split <;> rfl

theorem tick_battery_charge_total (c : Car) (t T : ℕ) :
    (c.tick t T).battery_charge_total =
      if c.tickIsCharging then (c.charge t T).battery_charge_total
      else c.drive.battery_charge_total := by
  simp only [Car.tick]; split <;> rfl

theorem tick_distance_driven (c : Car) (t T : ℕ) :
    (c.tick t T).distance_driven =
      if c.tickIsCharging then (c.charge t T).distance_driven
      else c.drive.distance_driven := by
  simp only [Car.tick]; split <;> rfl

theorem tick_charging (c : Car) (t T : ℕ) :
    (c.tick t T).charging =
      if c.tickIsCharging then (c.charge t T).charging else c.drive.charging := by
  simp only [Car.tick]; split <;> rfl

theorem tick_stops (c : Car) (t T : ℕ) :
    (c.tick t T).number_of_charging_stops =
      if c.tickIsCharging then (c.charge t T).number_of_charging_stops
      else c.drive.number_of_charging_stops := by
  simp only [Car.tick]; split <;> rfl

@[simp]
theorem tick_time_history (c : Car) (t T : ℕ) :
    (c.tick t T).time_history = c.time_history ++ [t] := by
  simp only [Car.tick, Car.charge]
  split
  · split <;> split <;> rfl
  · rfl

theorem tick_charge_level_history (c : Car) (t T : ℕ) :
    (c.tick t T).charge_level_history =
      c.charge_level_history ++ [(c.tick t T).battery_charge] := by
  simp only [Car.tick, Car.charge]
  split
  · split <;> split <;> rfl
  · rfl

theorem tick_distance_driven_history (c : Car) (t T : ℕ) :
    (c.tick t T).distance_driven_history =
      c.distance_driven_history ++ [(c.tick t T).distance_driven] := by
  simp only [Car.tick, Car.charge]
  split
  · split <;> split <;> rfl
  · rfl

@[simp]
theorem tick_capacity (c : Car) (t T : ℕ) :
    (c.tick t T).battery_capacity = c.battery_capacity := by
  simp only [Car.tick]; split
  · simp
  · rfl

@[simp]
theorem tick_energy_usage (c : Car) (t T : ℕ) :
    (c.tick t T).energy_usage_per_tick = c.energy_usage_per_tick := by
  simp only [Car.tick]; split
  · simp
  · rfl

@[simp]
theorem tick_speed (c : Car) (t T : ℕ) :
    (c.tick t T).charge_speed_per_tick = c.charge_speed_per_tick := by
  simp only [Car.tick]; split
  · simp
  · rfl

@[simp]
theorem tick_distance_per_tick (c : Car) (t T : ℕ) :
    (c.tick t T).distance_per_tick = c.distance_per_tick := by
  simp only [Car.tick]; split
  · simp
  · rfl

/-- The four per-run constants of the car state after any number of ticks. -/
theorem carAfter_const (tf csph dph : ℚ) (dur n : ℕ) :
    (carAfter tf csph dph dur n).battery_capacity = 70000 ∧
    (carAfter tf csph dph dur n).energy_usage_per_tick =
      power_for_velocity (dph / 3.6) * tf ∧
    (carAfter tf csph dph dur n).charge_speed_per_tick = csph * tf ∧
    (carAfter tf csph dph dur n).distance_per_tick = dph * tf := by
  induction n with
  | zero => exact ⟨rfl, rfl, rfl, rfl⟩
  | succ n ih => simpa [carAfter] using ih

/-! ## The driver loop and history recording -/

/-- Unrolling `Simulation.run`: the loop executes once per remaining tick,
appending the tick index to `time_history` and one entry to each of the other
two series every iteration. -/
theorem run_histories (k : ℕ) :
    ∀ s : Simulation, s.duration + 1 - s.time = k →
      (Simulation.run s).car.time_history =
        s.car.time_history ++ List.range' s.time k ∧
      (Simulation.run s).car.charge_level_history.length =
        s.car.charge_level_history.length + k ∧
      (Simulation.run s).car.distance_driven_history.length =
        s.car.distance_driven_history.length + k := by
  induction k with
  | zero =>
    intro s hk
    have hdone : s.is_done := by
      simp only [Simulation.is_done]; omega
    rw [Simulation.run, if_pos hdone]
    simp
  | succ k ih =>
    intro s hk
    have hnot : ¬ s.is_done := by
      simp only [Simulation.is_done]; omega
    rw [Simulation.run, if_neg hnot]
    have hk2 : s.tick.duration + 1 - s.tick.time = k := by
      simp only [Simulation.tick]; omega
    obtain ⟨h1, h2, h3⟩ := ih s.tick hk2
    have hc : s.tick.car = s.car.tick s.time s.duration := rfl
    have ht : s.tick.time = s.time + 1 := rfl
    refine ⟨?_, ?_, ?_⟩
    · rw [h1, hc, ht, tick_time_history, List.range'_succ, List.append_assoc]
      rfl
    · rw [h2, hc, tick_charge_level_history, List.length_append]
      simp
      omega
    · rw [h3, hc, tick_distance_driven_history, List.length_append]
      simp
      omega

/-! ## The sequence of branch decisions of a run -/

@[simp]
theorem kindsUpTo_zero (tf csph dph : ℚ) (dur : ℕ) :
    kindsUpTo tf csph dph dur 0 = [] := rfl

theorem kindsUpTo_succ (tf csph dph : ℚ) (dur n : ℕ) :
    kindsUpTo tf csph dph dur (n + 1) =
      kindsUpTo tf csph dph dur n ++
        [decide (carAfter tf csph dph dur n).tickIsCharging] := by
  simp [kindsUpTo, List.range_succ]

/-- Energy and distance accounting along a run: the cumulative total grows by
one charge increment per charging tick, the battery lags the total by one
energy increment per driving tick, and the odometer grows by one distance
increment per driving tick. -/
theorem carAfter_accounting (tf csph dph : ℚ) (dur n : ℕ) :
    (carAfter tf csph dph dur n).battery_charge_total =
      70000 + ((kindsUpTo tf csph dph dur n).count true : ℚ) * (csph * tf) ∧
    (carAfter tf csph dph dur n).battery_charge =
      (carAfter tf csph dph dur n).battery_charge_total -
        ((kindsUpTo tf csph dph dur n).count false : ℚ) *
          (power_for_velocity (dph / 3.6) * tf) ∧
    (carAfter tf csph dph dur n).distance_driven =
      ((kindsUpTo tf csph dph dur n).count false : ℚ) * (dph * tf) := by
  induction n with
  | zero =>
    refine ⟨?_, ?_, ?_⟩ <;> simp [carAfter, Car.init]
  | succ n ih =>
    obtain ⟨iht, ihb, ihd⟩ := ih
    obtain ⟨hcap, hu, hr, hd⟩ := carAfter_const tf csph dph dur n
    have hstep : carAfter tf csph dph dur (n + 1) =
        (carAfter tf csph dph dur n).tick (n + 1) dur := rfl
    by_cases hc : (carAfter tf csph dph dur n).tickIsCharging
    · have hk : kindsUpTo tf csph dph dur (n + 1) =
          kindsUpTo tf csph dph dur n ++ [true] := by
        rw [kindsUpTo_succ]; simp [hc]
      have hct : ((kindsUpTo tf csph dph dur (n + 1)).count true : ℚ) =
          ((kindsUpTo tf csph dph dur n).count true : ℚ) + 1 := by
        rw [hk]; simp [List.count_append]
      have hcf : ((kindsUpTo tf csph dph dur (n + 1)).count false : ℚ) =
          ((kindsUpTo tf csph dph dur n).count false : ℚ) := by
        rw [hk]; simp [List.count_append]
      refine ⟨?_, ?_, ?_⟩
      · rw [hstep, tick_battery_charge_total, if_pos hc, charge_battery_charge_total,
          iht, hr, hct]
        ring
      · rw [hstep, tick_battery_charge, if_pos hc, charge_battery_charge,
          tick_battery_charge_total, if_pos hc, charge_battery_charge_total,
          ihb, hcf]
        ring
      · rw [hstep, tick_distance_driven, if_pos hc, charge_distance_driven, ihd, hcf]
    · have hk : kindsUpTo tf csph dph dur (n + 1) =
          kindsUpTo tf csph dph dur n ++ [false] := by
        rw [kindsUpTo_succ]; simp [hc]
      have hct : ((kindsUpTo tf csph dph dur (n + 1)).count true : ℚ) =
          ((kindsUpTo tf csph dph dur n).count true : ℚ) := by
        rw [hk]; simp [List.count_append]
      have hcf : ((kindsUpTo tf csph dph dur (n + 1)).count false : ℚ) =
          ((kindsUpTo tf csph dph dur n).count false : ℚ) + 1 := by
        rw [hk]; simp [List.count_append]
      refine ⟨?_, ?_, ?_⟩
      · rw [hstep, tick_battery_charge_total, if_neg hc, drive_battery_charge_total,
          iht, hct]
      · rw [hstep, tick_battery_charge, if_neg hc, drive_battery_charge,
          tick_battery_charge_total, if_neg hc, drive_battery_charge_total,
          ihb, hcf, hu]
        ring
      · rw [hstep, tick_distance_driven, if_neg hc, drive_distance_driven, ihd, hcf, hd]
        ring

/-! ## Counting maximal contiguous runs of charging ticks -/

theorem countRunsFrom_append (l : List Bool) :
    ∀ (prev b : Bool),
      countRunsFrom prev (l ++ [b]) =
        countRunsFrom prev l + (if b && !(l.getLastD prev) then 1 else 0) := by
  induction l with
  | nil => intro prev b; simp [countRunsFrom]
  | cons a l ih =>
    intro prev b
    rw [List.cons_append, countRunsFrom, ih a b, countRunsFrom, List.getLastD_cons]
    omega

/-- Invariant tying the stop counter to the maximal contiguous charging runs,
for configurations where one driving tick plus one charging tick fit within
the battery capacity. The two side conjuncts are the strengthening needed for
the induction: a set flag means the last tick charged, and a cleared flag
right after a charging tick (with ticks still to go) means the battery can
afford the next driving tick. -/
theorem stops_eq_countRuns_invariant (tf csph dph : ℚ) (dur : ℕ)
    (hu0 : 0 ≤ power_for_velocity (dph / 3.6) * tf)
    (hcap : power_for_velocity (dph / 3.6) * tf + csph * tf ≤ 70000) :
    ∀ n, n ≤ dur →
      (carAfter tf csph dph dur n).number_of_charging_stops =
        countRuns (kindsUpTo tf csph dph dur n) ∧
      ((carAfter tf csph dph dur n).charging = true →
        (kindsUpTo tf csph dph dur n).getLastD false = true) ∧
      (n < dur → (kindsUpTo tf csph dph dur n).getLastD false = true →
        (carAfter tf csph dph dur n).charging = false →
        (carAfter tf csph dph dur n).battery_charge -
          power_for_velocity (dph / 3.6) * tf > 0) := by
  intro n
  induction n with
  | zero =>
    intro _
    refine ⟨rfl, ?_, ?_⟩
    · intro h; exact absurd h (by simp [carAfter, Car.init])
    · intro _ h; exact absurd h (by simp)
  | succ n ih =>
    intro hle
    have hlt : n < dur := by omega
    obtain ⟨ih1, ih2, ih3⟩ := ih (by omega)
    obtain ⟨hcapc, hu, hr, hd⟩ := carAfter_const tf csph dph dur n
    have hstep : carAfter tf csph dph dur (n + 1) =
        (carAfter tf csph dph dur n).tick (n + 1) dur := rfl
    by_cases hc : (carAfter tf csph dph dur n).tickIsCharging
    · have hk : kindsUpTo tf csph dph dur (n + 1) =
          kindsUpTo tf csph dph dur n ++ [true] := by
        rw [kindsUpTo_succ]; simp [hc]
      have hlast : (kindsUpTo tf csph dph dur (n + 1)).getLastD false = true := by
        rw [hk]; exact List.getLastD_concat _ _ _
      have hflag' := charge_charging_iff (carAfter tf csph dph dur n) (n + 1) dur
      refine ⟨?_, fun _ => hlast, ?_⟩
      · rw [hstep, tick_stops, if_pos hc, charge_stops, countRuns, hk,
          countRunsFrom_append]
        by_cases hflag : (carAfter tf csph dph dur n).charging = true
        · rw [if_pos hflag, ih2 hflag, ih1]
          simp [countRuns]
        · have hble : (carAfter tf csph dph dur n).battery_charge -
              (carAfter tf csph dph dur n).energy_usage_per_tick ≤ 0 := by
            rcases hc with h | h
            · exact absurd h hflag
            · exact h
          have hflagf : (carAfter tf csph dph dur n).charging = false := by
            cases h2 : (carAfter tf csph dph dur n).charging
            · rfl
            · exact absurd h2 hflag
          have hlastf : (kindsUpTo tf csph dph dur n).getLastD false = false := by
            cases h2 : (kindsUpTo tf csph dph dur n).getLastD false
            · rfl
            · exfalso
              have hpos := ih3 hlt h2 hflagf
              rw [hu] at hble
              linarith
          rw [if_neg (by rw [hflagf]; simp), ih1, hlastf]
          simp [countRuns]
      · intro _ _ hcleared
        rw [hstep, tick_charging, if_pos hc] at hcleared
        rw [hstep, tick_battery_charge, if_pos hc, charge_battery_charge, hr]
        rw [charge_charging_iff, hcapc, hr, hu] at hcleared
        rcases hcleared with hfull | hsuff
        · linarith
        · have hcast : ((n : ℚ) + 1) + 1 ≤ (dur : ℚ) := by
            have : (n + 1) + 1 ≤ dur := by omega
            exact_mod_cast this
          have hone : (1 : ℚ) ≤ (dur : ℚ) - ((n + 1 : ℕ) : ℚ) := by
            push_cast
            linarith
          have hmul : power_for_velocity (dph / 3.6) * tf ≤
              ((dur : ℚ) - ((n + 1 : ℕ) : ℚ)) *
                (power_for_velocity (dph / 3.6) * tf) :=
            le_mul_of_one_le_left hu0 hone
          linarith
    · have hk : kindsUpTo tf csph dph dur (n + 1) =
          kindsUpTo tf csph dph dur n ++ [false] := by
        rw [kindsUpTo_succ]; simp [hc]
      have hflagf : (carAfter tf csph dph dur n).charging = false := by
        cases h2 : (carAfter tf csph dph dur n).charging
        · rfl
        · exact absurd (Or.inl h2) hc
      have hlast : (kindsUpTo tf csph dph dur (n + 1)).getLastD false = false := by
        rw [hk]; exact List.getLastD_concat _ _ _
      refine ⟨?_, ?_, ?_⟩
      · rw [hstep, tick_stops, if_neg hc, drive_stops, ih1, hk]
        simp only [countRuns]
        rw [countRunsFrom_append]
        simp
      · intro hflag'
        rw [hstep, tick_charging, if_neg hc, drive_charging] at hflag'
        rw [hflagf] at hflag'
        exact absurd hflag' (by simp)
      · intro _ h2
        rw [hlast] at h2
        exact absurd h2 (by simp)

/-- Battery overshoot bound, for configurations whose per-tick energy usage is
non-negative and fits within the battery capacity and whose charge rate is
non-negative: the battery never exceeds capacity plus one tick of charge.
The side conjunct is the strengthening needed for the induction: while the
flag is set, even one more charge tick still fits within capacity. -/
theorem battery_le_capacity_invariant (tf csph dph : ℚ) (dur : ℕ)
    (hu0 : 0 ≤ power_for_velocity (dph / 3.6) * tf)
    (hucap : power_for_velocity (dph / 3.6) * tf ≤ 70000)
    (hr0 : 0 ≤ csph * tf) :
    ∀ n,
      (carAfter tf csph dph dur n).battery_charge ≤ 70000 + csph * tf ∧
      ((carAfter tf csph dph dur n).charging = true →
        (carAfter tf csph dph dur n).battery_charge + csph * tf ≤ 70000) := by
  intro n
  induction n with
  | zero =>
    constructor
    · show (70000 : ℚ) ≤ 70000 + csph * tf
      linarith
    · intro h
      exact absurd h (by simp [carAfter, Car.init])
  | succ n ih =>
    obtain ⟨ih1, ih2⟩ := ih
    obtain ⟨hcapc, hu, hr, hd⟩ := carAfter_const tf csph dph dur n
    have hstep : carAfter tf csph dph dur (n + 1) =
        (carAfter tf csph dph dur n).tick (n + 1) dur := rfl
    by_cases hc : (carAfter tf csph dph dur n).tickIsCharging
    · have hbat : (carAfter tf csph dph dur (n + 1)).battery_charge =
          (carAfter tf csph dph dur n).battery_charge + csph * tf := by
        rw [hstep, tick_battery_charge, if_pos hc, charge_battery_charge, hr]
      constructor
      · rw [hbat]
        by_cases hflag : (carAfter tf csph dph dur n).charging = true
        · have := ih2 hflag
          linarith
        · have hble : (carAfter tf csph dph dur n).battery_charge -
              (carAfter tf csph dph dur n).energy_usage_per_tick ≤ 0 := by
            rcases hc with h | h
            · exact absurd h hflag
            · exact h
          rw [hu] at hble
          linarith
      · intro hflag'
        rw [hstep, tick_charging, if_pos hc] at hflag'
        have hnotfull : ¬ ((carAfter tf csph dph dur n).battery_charge +
            csph * tf + csph * tf > 70000) := by
          intro hfull
          have hfalse : ((carAfter tf csph dph dur n).charge (n + 1) dur).charging
              = false := by
            rw [charge_charging_iff, hcapc, hr]
            left
            exact hfull
          rw [hflag'] at hfalse
          exact absurd hfalse (by simp)
        rw [hbat]
        linarith
    · have hflagf : (carAfter tf csph dph dur n).charging = false := by
        cases h2 : (carAfter tf csph dph dur n).charging
        · rfl
        · exact absurd (Or.inl h2) hc
      constructor
      · rw [hstep, tick_battery_charge, if_neg hc, drive_battery_charge, hu]
        linarith
      · intro hflag'
        rw [hstep, tick_charging, if_neg hc, drive_charging, hflagf] at hflag'
        exact absurd hflag' (by simp)

/-! ## The claims -/

/-- With the default configuration (hourly ticks, 70 km/h) the first tick is
not a charging tick: the full battery comfortably covers one tick. -/
theorem init_default_not_charging : ¬ (Car.init 1 21000 70).tickIsCharging := by
  intro h
  rcases h with h | h
  · exact absurd h (by simp [Car.init])
  · have hb : (Car.init 1 21000 70).battery_charge = 70000 := rfl
    have hu : (Car.init 1 21000 70).energy_usage_per_tick =
        power_for_velocity (70 / 3.6) * 1 := rfl
    rw [hb, hu] at h
    norm_num [power_for_velocity] at h

/-- Claim C1: for every reachable state and every tick, the tick is a charging tick
iff the charging flag is set or `battery_charge - energy_per_tick ≤ 0`
(evaluated before any state change); otherwise it is a driving tick, which
subtracts `energy_per_tick` from the battery and adds `distance_per_tick` to
the odometer (and touches neither the cumulative total nor the stop count nor
the flag). -/
theorem claim_C1_tick_policy (c : Car) (hreach : Reachable c) (t T : ℕ) :
    (c.tickIsCharging ↔
      (c.charging = true ∨ c.battery_charge - c.energy_usage_per_tick ≤ 0)) ∧
    (c.tickIsCharging →
      (c.tick t T).battery_charge = c.battery_charge + c.charge_speed_per_tick ∧
      (c.tick t T).distance_driven = c.distance_driven) ∧
    (¬ c.tickIsCharging →
      (c.tick t T).battery_charge = c.battery_charge - c.energy_usage_per_tick ∧
      (c.tick t T).distance_driven = c.distance_driven + c.distance_per_tick ∧
      (c.tick t T).battery_charge_total = c.battery_charge_total ∧
      (c.tick t T).number_of_charging_stops = c.number_of_charging_stops ∧
      (c.tick t T).charging = false) := by
  refine ⟨Iff.rfl, ?_, ?_⟩
  · intro h
    rw [tick_battery_charge, if_pos h, charge_battery_charge,
      tick_distance_driven, if_pos h, charge_distance_driven]
    exact ⟨rfl, rfl⟩
  · intro h
    have hflagf : c.charging = false := by
      cases h2 : c.charging
      · rfl
      · exact absurd (Or.inl h2) h
    rw [tick_battery_charge, if_neg h, drive_battery_charge,
      tick_distance_driven, if_neg h, drive_distance_driven,
      tick_battery_charge_total, if_neg h, drive_battery_charge_total,
      tick_stops, if_neg h, drive_stops,
      tick_charging, if_neg h, drive_charging, hflagf]
    exact ⟨rfl, rfl, rfl, rfl, rfl⟩

/-- Witness for C1 at the default configuration, first tick (a driving
tick). -/
theorem claim_C1_tick_policy_witness :
    ¬ (Car.init 1 21000 70).tickIsCharging ∧
    ((Car.init 1 21000 70).tick 1 5).battery_charge =
      70000 - power_for_velocity (70 / 3.6) * 1 ∧
    ((Car.init 1 21000 70).tick 1 5).distance_driven = 0 + 70 * 1 := by
  have hreach : Reachable (Car.init 1 21000 70) :=
    ⟨1, 21000, 70, 5, 0, by omega, rfl⟩
  obtain ⟨h1, h2, h3⟩ :=
    claim_C1_tick_policy (Car.init 1 21000 70) hreach 1 5
  obtain ⟨hb, hd, _⟩ := h3 init_default_not_charging
  exact ⟨init_default_not_charging, by rw [hb]; rfl, by rw [hd]; rfl⟩

/-- Claim C2: on a charging tick, `charge_rate_per_tick` is added to the battery,
and the flag ends up cleared iff the post-charge battery level passes the
fully-charged look-ahead (`+ rate > capacity`) or exceeds the energy needed
for the remaining ticks. -/
theorem claim_C2_stop_conditions (c : Car) (t T : ℕ) :
    (c.charge t T).battery_charge = c.battery_charge + c.charge_speed_per_tick ∧
    ((c.charge t T).charging = false ↔
      (c.battery_charge + c.charge_speed_per_tick + c.charge_speed_per_tick >
        c.battery_capacity ∨
       c.battery_charge + c.charge_speed_per_tick >
        ((T : ℚ) - (t : ℚ)) * c.energy_usage_per_tick)) :=
  ⟨charge_battery_charge c t T, charge_charging_iff c t T⟩

/-- Claim C3, amended: the cumulative charge total equals the initial battery
charge (the capacity, 70000 Wh) plus the number of charging ticks so far
times the per-tick charge rate; it starts at 70000, not 0. -/
theorem claim_C3_cumulative_charge (tf csph dph : ℚ) (dur n : ℕ) :
    (carAfter tf csph dph dur n).battery_charge_total =
      70000 + ((kindsUpTo tf csph dph dur n).count true : ℚ) *
        (carAfter tf csph dph dur n).charge_speed_per_tick := by
  obtain ⟨h1, _, _⟩ := carAfter_accounting tf csph dph dur n
  obtain ⟨_, _, hr, _⟩ := carAfter_const tf csph dph dur n
  rw [h1, hr]

/-- Counterexample to C3 as stated: before the first charging tick the
cumulative total is 70000, not 0 (zero charging ticks times the rate). -/
theorem claim_C3_counterexample :
    (carAfter 1 21000 70 5 0).battery_charge_total = 70000 ∧
    (kindsUpTo 1 21000 70 5 0).count true = 0 ∧
    (carAfter 1 21000 70 5 0).battery_charge_total ≠
      ((kindsUpTo 1 21000 70 5 0).count true : ℚ) *
        (carAfter 1 21000 70 5 0).charge_speed_per_tick := by
  refine ⟨rfl, rfl, ?_⟩
  have h : ((kindsUpTo 1 21000 70 5 0).count true : ℚ) *
      (carAfter 1 21000 70 5 0).charge_speed_per_tick = 0 := by
    norm_num [kindsUpTo, carAfter, Car.init]
  rw [h]
  norm_num [carAfter, Car.init]

/-- Claim C6: the cumulative charge total never decreases from one tick to the
next, and (for a positive charge rate) strictly increases exactly on charging
ticks. -/
theorem claim_C6_monotone_total (tf csph dph : ℚ) (dur n : ℕ)
    (hr : 0 < csph * tf) :
    (carAfter tf csph dph dur n).battery_charge_total ≤
      (carAfter tf csph dph dur (n + 1)).battery_charge_total ∧
    ((carAfter tf csph dph dur n).battery_charge_total <
        (carAfter tf csph dph dur (n + 1)).battery_charge_total ↔
      (carAfter tf csph dph dur n).tickIsCharging) := by
  obtain ⟨hcapc, hu, hrr, hd⟩ := carAfter_const tf csph dph dur n
  have hstep : carAfter tf csph dph dur (n + 1) =
      (carAfter tf csph dph dur n).tick (n + 1) dur := rfl
  by_cases hc : (carAfter tf csph dph dur n).tickIsCharging
  · rw [hstep, tick_battery_charge_total, if_pos hc,
      charge_battery_charge_total, hrr]
    refine ⟨by linarith, ?_, ?_⟩
    · intro _; exact hc
    · intro _; linarith
  · rw [hstep, tick_battery_charge_total, if_neg hc, drive_battery_charge_total]
    refine ⟨le_refl _, ?_, ?_⟩
    · intro hlt; exact absurd hlt (lt_irrefl _)
    · intro h; exact absurd h hc

/-- Witness for C6 at the default configuration, first tick (a driving tick:
the total stays put and the strict-increase disjunct is indeed false). -/
theorem claim_C6_monotone_total_witness :
    (0 : ℚ) < 21000 * 1 ∧
    ¬ (carAfter 1 21000 70 5 0).tickIsCharging ∧
    (carAfter 1 21000 70 5 0).battery_charge_total ≤
      (carAfter 1 21000 70 5 1).battery_charge_total := by
  have hr : (0 : ℚ) < 21000 * 1 := by norm_num
  have h := claim_C6_monotone_total 1 21000 70 5 0 hr
  exact ⟨hr, init_default_not_charging, h.1⟩

/-- Claim C9: the summary computation never hits a division by zero on a reachable
state: the result always exists, is 0 when no distance has been driven, and
is net-consumed-energy over distance otherwise. -/
theorem claim_C9_energy_per_km_safe (c : Car) (hreach : Reachable c) :
    (∃ q, c.energy_per_km = some q) ∧
    (c.distance_driven = 0 → c.energy_per_km = some 0) ∧
    (0 < c.distance_driven →
      c.energy_per_km =
        some ((c.battery_charge_total - c.battery_charge) / c.distance_driven)) := by
  refine ⟨?_, ?_, ?_⟩
  · by_cases h : c.distance_driven = 0
    · exact ⟨0, by simp [Car.energy_per_km, h]⟩
    · exact ⟨(c.battery_charge_total - c.battery_charge) / c.distance_driven,
        by simp [Car.energy_per_km, h, safeDiv]⟩
  · intro h
    simp [Car.energy_per_km, h]
  · intro h
    have hne : c.distance_driven ≠ 0 := ne_of_gt h
    simp [Car.energy_per_km, hne, safeDiv]

/-- Witness for C9 at the freshly initialised default car (zero distance). -/
theorem claim_C9_energy_per_km_safe_witness :
    (Car.init 1 21000 70).distance_driven = 0 ∧
    (Car.init 1 21000 70).energy_per_km = some 0 := by
  have hreach : Reachable (Car.init 1 21000 70) :=
    ⟨1, 21000, 70, 5, 0, by omega, rfl⟩
  exact ⟨rfl, (claim_C9_energy_per_km_safe (Car.init 1 21000 70) hreach).2.1 rfl⟩

/-- Claim C4: a complete run over horizon `N` records exactly `N` history entries,
with tick indices `1..N` in insertion order, one entry being appended to each
series by every tick unconditionally (charging or driving alike). -/
theorem claim_C4_history (tf csph dph : ℚ) (N : ℕ) :
    (Simulation.run ⟨1, N, Car.init tf csph dph⟩).car.time_history =
      List.range' 1 N ∧
    (Simulation.run ⟨1, N, Car.init tf csph dph⟩).car.charge_level_history.length
      = N ∧
    (Simulation.run ⟨1, N, Car.init tf csph dph⟩).car.distance_driven_history.length
      = N ∧
    ∀ (c : Car) (t T : ℕ),
      (c.tick t T).time_history = c.time_history ++ [t] ∧
      (c.tick t T).charge_level_history.length =
        c.charge_level_history.length + 1 ∧
      (c.tick t T).distance_driven_history.length =
        c.distance_driven_history.length + 1 := by
  obtain ⟨h1, h2, h3⟩ :=
    run_histories N ⟨1, N, Car.init tf csph dph⟩ (by simp)
  refine ⟨?_, ?_, ?_, ?_⟩
  · rw [h1]
    rfl
  · rw [h2]
    simp [Car.init]
  · rw [h3]
    simp [Car.init]
  · intro c t T
    refine ⟨tick_time_history c t T, ?_, ?_⟩
    · rw [tick_charge_level_history, List.length_append]
      rfl
    · rw [tick_distance_driven_history, List.length_append]
      rfl

/-- Claim C10: in every reachable state the consumed energy
(`battery_charge_total - battery_charge`) is the number of driving ticks
times the per-tick energy usage, the odometer is that same count times the
per-tick distance, and hence whenever any distance has been driven the
reported energy-per-km is exactly `energy_usage_per_tick / distance_per_tick`,
independently of how driving and charging ticks interleave. -/
theorem claim_C10_efficiency (tf csph dph : ℚ) (dur n : ℕ) :
    (carAfter tf csph dph dur n).battery_charge_total -
        (carAfter tf csph dph dur n).battery_charge =
      ((kindsUpTo tf csph dph dur n).count false : ℚ) *
        (carAfter tf csph dph dur n).energy_usage_per_tick ∧
    (carAfter tf csph dph dur n).distance_driven =
      ((kindsUpTo tf csph dph dur n).count false : ℚ) *
        (carAfter tf csph dph dur n).distance_per_tick ∧
    (0 < (carAfter tf csph dph dur n).distance_driven →
      (carAfter tf csph dph dur n).energy_per_km =
        some ((carAfter tf csph dph dur n).energy_usage_per_tick /
          (carAfter tf csph dph dur n).distance_per_tick)) := by
  obtain ⟨h1, h2, h3⟩ := carAfter_accounting tf csph dph dur n
  obtain ⟨_, hu, _, hd⟩ := carAfter_const tf csph dph dur n
  have hdiff : (carAfter tf csph dph dur n).battery_charge_total -
      (carAfter tf csph dph dur n).battery_charge =
      ((kindsUpTo tf csph dph dur n).count false : ℚ) *
        (carAfter tf csph dph dur n).energy_usage_per_tick := by
    rw [h2, hu]
    ring
  have hdist : (carAfter tf csph dph dur n).distance_driven =
      ((kindsUpTo tf csph dph dur n).count false : ℚ) *
        (carAfter tf csph dph dur n).distance_per_tick := by
    rw [h3, hd]
  refine ⟨hdiff, hdist, ?_⟩
  intro hpos
  have hD0 : (0 : ℚ) ≤ ((kindsUpTo tf csph dph dur n).count false : ℚ) :=
    Nat.cast_nonneg _
  have hmul : (0 : ℚ) < ((kindsUpTo tf csph dph dur n).count false : ℚ) *
      (carAfter tf csph dph dur n).distance_per_tick := by
    rw [← hdist]
    exact hpos
  have hDpos : (0 : ℚ) < ((kindsUpTo tf csph dph dur n).count false : ℚ) := by
    rcases lt_or_eq_of_le hD0 with h | h
    · exact h
    · exfalso
      rw [← h, zero_mul] at hmul
      exact lt_irrefl 0 hmul
  have hne : (carAfter tf csph dph dur n).distance_driven ≠ 0 := ne_of_gt hpos
  rw [Car.energy_per_km, if_pos hne, safeDiv, if_neg hne, hdiff, hdist,
    mul_div_mul_left _ _ (ne_of_gt hDpos)]

/-- Witness for C10: after one (driving) tick of the default run, the
reported efficiency equals the per-tick energy over the per-tick distance. -/
theorem claim_C10_efficiency_witness :
    0 < (carAfter 1 21000 70 5 1).distance_driven ∧
    (carAfter 1 21000 70 5 1).energy_per_km =
      some (power_for_velocity (70 / 3.6) * 1 / (70 * 1)) := by
  have hstep : carAfter 1 21000 70 5 1 = (Car.init 1 21000 70).tick 1 5 := rfl
  have hpos : (0 : ℚ) < (carAfter 1 21000 70 5 1).distance_driven := by
    rw [hstep, tick_distance_driven, if_neg init_default_not_charging,
      drive_distance_driven]
    norm_num [Car.init]
  have h := (claim_C10_efficiency 1 21000 70 5 1).2.2 hpos
  obtain ⟨_, hu, _, hd⟩ := carAfter_const 1 21000 70 5 1
  rw [hu, hd] at h
  exact ⟨hpos, h⟩

/-- Concrete facts about the two-tick run with hourly ticks, 216 km/h and a
1000 W charger: per-tick usage is about 94066 Wh, far above the capacity, so
tick 1 charges (fresh stop), the fully-charged look-ahead immediately clears
the flag, and tick 2 nevertheless charges again (fresh stop) because the
battery is still below one tick of usage. -/
theorem cex_run_facts :
    (carAfter 1 1000 216 2 0).tickIsCharging ∧
    (carAfter 1 1000 216 2 1).battery_charge = 71000 ∧
    (carAfter 1 1000 216 2 1).charging = false ∧
    (carAfter 1 1000 216 2 1).number_of_charging_stops = 1 ∧
    (carAfter 1 1000 216 2 1).tickIsCharging ∧
    (carAfter 1 1000 216 2 2).battery_charge = 72000 ∧
    (carAfter 1 1000 216 2 2).number_of_charging_stops = 2 := by
  have e1 : carAfter 1 1000 216 2 1 = (Car.init 1 1000 216).tick 1 2 := rfl
  have e2 : carAfter 1 1000 216 2 2 = (carAfter 1 1000 216 2 1).tick 2 2 := rfl
  have hu : (Car.init 1 1000 216).energy_usage_per_tick =
      470328659681 / 5000000 := by
    norm_num [Car.init, power_for_velocity]
  have hcond1 : (Car.init 1 1000 216).tickIsCharging := by
    rw [Car.tickIsCharging, hu]
    right
    norm_num [Car.init]
  have hcond0 : (carAfter 1 1000 216 2 0).tickIsCharging := hcond1
  have hb1 : (carAfter 1 1000 216 2 1).battery_charge = 71000 := by
    rw [e1, tick_battery_charge, if_pos hcond1, charge_battery_charge]
    norm_num [Car.init]
  have hch1 : (carAfter 1 1000 216 2 1).charging = false := by
    rw [e1, tick_charging, if_pos hcond1, charge_charging_iff]
    left
    norm_num [Car.init]
  have hs1 : (carAfter 1 1000 216 2 1).number_of_charging_stops = 1 := by
    rw [e1, tick_stops, if_pos hcond1, charge_stops]
    norm_num [Car.init]
  have hu1 : (carAfter 1 1000 216 2 1).energy_usage_per_tick =
      470328659681 / 5000000 := by
    rw [e1, tick_energy_usage, hu]
  have hr1 : (carAfter 1 1000 216 2 1).charge_speed_per_tick = 1000 := by
    rw [e1, tick_speed]
    norm_num [Car.init]
  have hcond2 : (carAfter 1 1000 216 2 1).tickIsCharging := by
    rw [Car.tickIsCharging, hb1, hu1, hch1]
    right
    norm_num
  have hb2 : (carAfter 1 1000 216 2 2).battery_charge = 72000 := by
    rw [e2, tick_battery_charge, if_pos hcond2, charge_battery_charge, hb1, hr1]
    norm_num
  have hs2 : (carAfter 1 1000 216 2 2).number_of_charging_stops = 2 := by
    rw [e2, tick_stops, if_pos hcond2, charge_stops, hch1]
    rw [if_neg (by simp), hs1]
  exact ⟨hcond0, hb1, hch1, hs1, hcond2, hb2, hs2⟩

/-- Claim C5, amended: for configurations where one driving tick plus one charging
tick of energy fit within the battery capacity (and per-tick usage is
non-negative), the final stop count of a complete run equals the number of
maximal contiguous runs of charging ticks. Without that bound the count can
exceed the number of contiguous runs (see the counterexample). -/
theorem claim_C5_stop_counting (tf csph dph : ℚ) (dur : ℕ)
    (hu0 : 0 ≤ power_for_velocity (dph / 3.6) * tf)
    (hcap : power_for_velocity (dph / 3.6) * tf + csph * tf ≤ 70000) :
    (carAfter tf csph dph dur dur).number_of_charging_stops =
      countRuns (kindsUpTo tf csph dph dur dur) :=
  (stops_eq_countRuns_invariant tf csph dph dur hu0 hcap dur (le_refl dur)).1

/-- Witness for C5 at the default configuration over three ticks (all
driving: no stop, no charging run). -/
theorem claim_C5_stop_counting_witness :
    0 ≤ power_for_velocity (70 / 3.6) * 1 ∧
    power_for_velocity (70 / 3.6) * 1 + 21000 * 1 ≤ 70000 ∧
    (carAfter 1 21000 70 3 3).number_of_charging_stops =
      countRuns (kindsUpTo 1 21000 70 3 3) := by
  refine ⟨by norm_num [power_for_velocity], by norm_num [power_for_velocity],
    claim_C5_stop_counting 1 21000 70 3 (by norm_num [power_for_velocity])
      (by norm_num [power_for_velocity])⟩

/-- Counterexample to C5 as stated: in the 216 km/h, 1000 W run both ticks
are charging ticks, a single maximal contiguous charging run, yet the stop
counter ends at 2: the fully-charged look-ahead clears the flag mid-run and
the very next charging tick is counted as a fresh stop. -/
theorem claim_C5_counterexample :
    kindsUpTo 1 1000 216 2 2 = [true, true] ∧
    countRuns (kindsUpTo 1 1000 216 2 2) = 1 ∧
    (carAfter 1 1000 216 2 2).number_of_charging_stops = 2 ∧
    (carAfter 1 1000 216 2 2).number_of_charging_stops ≠
      countRuns (kindsUpTo 1 1000 216 2 2) := by
  obtain ⟨hcond1, _, _, _, hcond2, _, hs2⟩ := cex_run_facts
  have hk : kindsUpTo 1 1000 216 2 2 = [true, true] := by
    rw [kindsUpTo_succ, kindsUpTo_succ, kindsUpTo_zero,
      decide_eq_true hcond1, decide_eq_true hcond2]
    rfl
  refine ⟨hk, ?_, hs2, ?_⟩
  · rw [hk]
    rfl
  · rw [hk, hs2]
    decide

/-- Claim C7, amended: for configurations whose per-tick energy usage is
non-negative and at most the battery capacity, and whose per-tick charge rate
is non-negative, the battery never exceeds nominal capacity by more than one
tick of charge in any reachable state. Without the usage bound the battery
can climb higher (see the counterexample). -/
theorem claim_C7_battery_bound (tf csph dph : ℚ) (dur n : ℕ)
    (hu0 : 0 ≤ power_for_velocity (dph / 3.6) * tf)
    (hucap : power_for_velocity (dph / 3.6) * tf ≤ 70000)
    (hr0 : 0 ≤ csph * tf) :
    (carAfter tf csph dph dur n).battery_charge ≤
      (carAfter tf csph dph dur n).battery_capacity +
        (carAfter tf csph dph dur n).charge_speed_per_tick := by
  obtain ⟨hcapc, _, hr, _⟩ := carAfter_const tf csph dph dur n
  rw [hcapc, hr]
  exact (battery_le_capacity_invariant tf csph dph dur hu0 hucap hr0 n).1

/-- Witness for C7 after one tick of the default run. -/
theorem claim_C7_battery_bound_witness :
    0 ≤ power_for_velocity (70 / 3.6) * 1 ∧
    power_for_velocity (70 / 3.6) * 1 ≤ 70000 ∧
    (0 : ℚ) ≤ 21000 * 1 ∧
    (carAfter 1 21000 70 5 1).battery_charge ≤
      (carAfter 1 21000 70 5 1).battery_capacity +
        (carAfter 1 21000 70 5 1).charge_speed_per_tick := by
  refine ⟨by norm_num [power_for_velocity], by norm_num [power_for_velocity],
    by norm_num,
    claim_C7_battery_bound 1 21000 70 5 1 (by norm_num [power_for_velocity])
      (by norm_num [power_for_velocity]) (by norm_num)⟩

/-- Counterexample to C7 as stated: in the 216 km/h, 1000 W run the battery
reaches 72000 Wh after two ticks, exceeding capacity plus one tick of charge
(70000 + 1000 = 71000 Wh), because a fresh charging tick can start from a
level that is already above capacity. -/
theorem claim_C7_counterexample :
    (carAfter 1 1000 216 2 2).battery_charge = 72000 ∧
    (carAfter 1 1000 216 2 2).battery_capacity = 70000 ∧
    (carAfter 1 1000 216 2 2).charge_speed_per_tick = 1000 ∧
    ¬ ((carAfter 1 1000 216 2 2).battery_charge ≤
        (carAfter 1 1000 216 2 2).battery_capacity +
          (carAfter 1 1000 216 2 2).charge_speed_per_tick) := by
  obtain ⟨_, _, _, _, _, hb2, _⟩ := cex_run_facts
  obtain ⟨hcapc, _, hr, _⟩ := carAfter_const 1 1000 216 2 2
  have hr2 : (carAfter 1 1000 216 2 2).charge_speed_per_tick = 1000 := by
    rw [hr]; norm_num
  refine ⟨hb2, hcapc, hr2, ?_⟩
  rw [hb2, hcapc, hr2]
  norm_num
